import Mathlib



/-!
Verification of the wecker alarm-clock core against its specification.

The Go sources are shallowly embedded:
* `tone/Tone.go` (the pattern DSL): `noteMap`, `parseFreq`, `parseDuration`,
  `parseCommands`, `executeCommands`.  Go float64 values are modelled by
  `GoFloat` (exact rationals plus the IEEE specials); decimal-to-double
  rounding and the out-of-range error of `strconv.ParseFloat` are abstracted
  away (no claim depends on them).  `time.Duration` is an `Int` of
  nanoseconds; the int64 wrap-around of `ms * time.Millisecond` is modelled
  by `wrap64`.
* `config/config.go`: `Alarm`, `Config`, `IsAlarmActive`, the `15:04:05`
  formatting of a wall-clock instant.
* the alarm manager: `checkAlarms`, `updateActiveAlarms`, `SnoozeAlarm`,
  `SetSnoozeTime`; the Go `map[int]*ActiveAlarm` is an association list and
  the in-place mutations become pure state transformers.  Callback dispatch
  (fire-and-forget goroutines that only notify collaborators) is omitted.
* the timer manager: `StartSleepTimer` on a two-slot timer state.
* `audio/audio.go` (the second, tone-file-aware player): `findToneFiles`
  over an abstract directory walk (filepath.Walk visits entries in lexical
  order, so the walk list is sorted by path), and the source resolution of
  `PlayAlarm`, returning the playback action it would start or the error it
  returns before starting anything.
-/

/-- Go float64 values as they occur in the tone DSL: exact rationals plus
the IEEE specials that `strconv.ParseFloat` can produce. -/
inductive GoFloat where
  | finite (q : ℚ)
  | inf (neg : Bool)
  | nan
  deriving DecidableEq, Repr

/-- The fixed note table of `tone/Tone.go` (`noteMap`), mapping the
`NOTE_*` pitch names to their frequency in Hz. -/
def noteMap : List (String × ℚ) :=
  [("NOTE_B0", 31), ("NOTE_C1", 33), ("NOTE_CS1", 35), ("NOTE_D1", 37),
   ("NOTE_DS1", 39), ("NOTE_E1", 41), ("NOTE_F1", 44), ("NOTE_FS1", 46),
   ("NOTE_G1", 49), ("NOTE_GS1", 52), ("NOTE_A1", 55), ("NOTE_AS1", 58),
   ("NOTE_B1", 62), ("NOTE_C2", 65), ("NOTE_CS2", 69), ("NOTE_D2", 73),
   ("NOTE_DS2", 78), ("NOTE_E2", 82), ("NOTE_F2", 87), ("NOTE_FS2", 93),
   ("NOTE_G2", 98), ("NOTE_GS2", 104), ("NOTE_A2", 110), ("NOTE_AS2", 117),
   ("NOTE_B2", 123), ("NOTE_C3", 131), ("NOTE_CS3", 139), ("NOTE_D3", 147),
   ("NOTE_DS3", 156), ("NOTE_E3", 165), ("NOTE_F3", 175), ("NOTE_FS3", 185),
   ("NOTE_G3", 196), ("NOTE_GS3", 208), ("NOTE_A3", 220), ("NOTE_AS3", 233),
   ("NOTE_B3", 247), ("NOTE_C4", 262), ("NOTE_CS4", 277), ("NOTE_D4", 294),
   ("NOTE_DS4", 311), ("NOTE_E4", 330), ("NOTE_F4", 349), ("NOTE_FS4", 370),
   ("NOTE_G4", 392), ("NOTE_GS4", 415), ("NOTE_A4", 440), ("NOTE_AS4", 466),
   ("NOTE_B4", 494), ("NOTE_C5", 523), ("NOTE_CS5", 554), ("NOTE_D5", 587),
   ("NOTE_DS5", 622), ("NOTE_E5", 659), ("NOTE_F5", 698), ("NOTE_FS5", 740),
   ("NOTE_G5", 784), ("NOTE_GS5", 831), ("NOTE_A5", 880), ("NOTE_AS5", 932),
   ("NOTE_B5", 988), ("NOTE_C6", 1047), ("NOTE_CS6", 1109), ("NOTE_D6", 1175),
   ("NOTE_DS6", 1245), ("NOTE_E6", 1319), ("NOTE_F6", 1397), ("NOTE_FS6", 1480),
   ("NOTE_G6", 1568), ("NOTE_GS6", 1661), ("NOTE_A6", 1760), ("NOTE_AS6", 1865),
   ("NOTE_B6", 1976), ("NOTE_C7", 2093), ("NOTE_CS7", 2217), ("NOTE_D7", 2349),
   ("NOTE_DS7", 2489), ("NOTE_E7", 2637), ("NOTE_F7", 2794), ("NOTE_FS7", 2960),
   ("NOTE_G7", 3136), ("NOTE_GS7", 3322), ("NOTE_A7", 3520), ("NOTE_AS7", 3729),
   ("NOTE_B7", 3951), ("NOTE_C8", 4186), ("NOTE_CS8", 4435), ("NOTE_D8", 4699),
   ("NOTE_DS8", 4978)]

/-- One Go nanosecond unit: `time.Millisecond` in nanoseconds. -/
def millisecond : Int := 1000000

/-- `time.Minute` in nanoseconds. -/
def minuteNs : Int := 60 * 1000000000

/-- Wrap an integer into the int64 range, modelling Go int64 overflow. -/
def wrap64 (x : Int) : Int := (x + 2 ^ 63) % 2 ^ 64 - 2 ^ 63

/-- The message format of a Go `strconv` `*NumError` with `ErrSyntax`;
the `%q` quoting is modelled as plain double quotes (the reported token is
a whitespace-free pattern token). -/
def numErrSyntax (fn s : String) : String :=
  "strconv." ++ fn ++ ": parsing \"" ++ s ++ "\": invalid syntax"

/-- The `ErrRange` variant of the Go `strconv` `*NumError` message. -/
def numErrRange (fn s : String) : String :=
  "strconv." ++ fn ++ ": parsing \"" ++ s ++ "\": value out of range"

/-- Numeric value of a list of decimal digit characters. -/
def digitsToNat (l : List Char) : Nat :=
  l.foldl (fun acc c => acc * 10 + (c.toNat - '0'.toNat)) 0

/-- Core of `strconv.Atoi`: optional sign followed by a nonempty run of
decimal digits (base 10, so no underscores). -/
def atoiCore (l : List Char) : Option Int :=
  match l with
  | '+' :: r => if r ≠ [] ∧ r.all Char.isDigit then some (digitsToNat r) else none
  | '-' :: r => if r ≠ [] ∧ r.all Char.isDigit then some (-(digitsToNat r : Int)) else none
  | r => if r ≠ [] ∧ r.all Char.isDigit then some (digitsToNat r) else none

/-- `strconv.Atoi`: parse an int, rejecting values outside the int64
range with `ErrRange` as Go does on 64-bit platforms. -/
def Atoi (s : String) : Except String Int :=
  match atoiCore s.data with
  | none => .error (numErrSyntax "Atoi" s)
  | some v =>
      if -(2 ^ 63) ≤ v ∧ v < 2 ^ 63 then .ok v
      else .error (numErrRange "Atoi" s)

/-- Hexadecimal digit test, as in the Go scanner. -/
def isHexDigit (c : Char) : Bool :=
  c.isDigit || ('a' ≤ c && c ≤ 'f') || ('A' ≤ c && c ≤ 'F')

/-- Value of one hexadecimal digit. -/
def hexDigitVal (c : Char) : Nat :=
  if c.isDigit then c.toNat - '0'.toNat
  else if 'a' ≤ c && c ≤ 'f' then c.toNat - 'a'.toNat + 10
  else c.toNat - 'A'.toNat + 10

/-- Numeric value of a list of hexadecimal digit characters. -/
def hexDigitsToNat (l : List Char) : Nat :=
  l.foldl (fun acc c => acc * 16 + hexDigitVal c) 0

/-- Go literal underscore rule on one digit run (digits and underscores
only): every underscore must sit between two digits, so the run must not
start or end with an underscore and must not contain two adjacent ones. -/
def underscoresOk (l : List Char) : Bool :=
  (l.head? ≠ some '_') && (l.getLast? ≠ some '_') &&
    ((l.zip l.tail).all fun p => !(p.1 = '_' && p.2 = '_'))

/-- Consume a maximal run of digits/underscores, check the underscore
placement, and return the digits (underscores removed) with the rest;
`none` when the run violates the underscore rule. -/
def readDigitRun (isD : Char → Bool) (l : List Char) :
    Option (List Char × List Char) :=
  let run := l.takeWhile fun c => isD c || c = '_'
  let rest := l.dropWhile fun c => isD c || c = '_'
  if underscoresOk run then some (run.filter (· ≠ '_'), rest) else none

/-- Parse the optional decimal exponent suffix of a float literal and
return its signed value; the input must be fully consumed. -/
def parseExponent (l : List Char) : Option Int :=
  match l with
  | [] => some 0
  | e :: r =>
      if e = 'e' ∨ e = 'E' then
        let (sgn, r2) : Int × List Char :=
          match r with
          | '+' :: r2 => (1, r2)
          | '-' :: r2 => (-1, r2)
          | r2 => (1, r2)
        match readDigitRun Char.isDigit r2 with
        | some (ds, rest) =>
            if ds ≠ [] ∧ rest = [] then some (sgn * digitsToNat ds) else none
        | none => none
      else none

/-- Mandatory binary exponent of a Go hexadecimal float literal
(`p` followed by a signed decimal digit run, consuming the input). -/
def parseHexExponent (l : List Char) : Option Int :=
  match l with
  | p :: r =>
      if p = 'p' ∨ p = 'P' then
        let (sgn, r2) : Int × List Char :=
          match r with
          | '+' :: r2 => (1, r2)
          | '-' :: r2 => (-1, r2)
          | r2 => (1, r2)
        match readDigitRun Char.isDigit r2 with
        | some (ds, rest) =>
            if ds ≠ [] ∧ rest = [] then some (sgn * digitsToNat ds) else none
        | none => none
      else none
  | [] => none

/-- Integer and fractional digit runs of a mantissa (an optional dot in
between), returning both digit lists and the unconsumed rest. -/
def readMantissa (isD : Char → Bool) (l : List Char) :
    Option (List Char × List Char × List Char) :=
  match readDigitRun isD l with
  | none => none
  | some (ids, r1) =>
      match r1 with
      | '.' :: r2 =>
          match readDigitRun isD r2 with
          | none => none
          | some (fds, r3) => some (ids, fds, r3)
      | _ => some (ids, [], r1)

/-- Decimal form of a Go float literal (after the sign): mantissa digits
with an optional fraction and an optional decimal exponent. -/
def parseDecimalFloat (l : List Char) : Option ℚ :=
  match readMantissa Char.isDigit l with
  | none => none
  | some (ids, fds, rest) =>
      if ids ++ fds = [] then none
      else
        match parseExponent rest with
        | none => none
        | some e =>
            some ((digitsToNat (ids ++ fds) : ℚ) * (10 : ℚ) ^ (e - fds.length))

/-- Hexadecimal form of a Go float literal (after the sign and the `0x`
prefix, with Go also permitting one underscore right after the prefix):
hex mantissa and a mandatory binary exponent. -/
def parseHexFloat (l : List Char) : Option ℚ :=
  let l1 := match l with
    | '_' :: c :: r => if isHexDigit c then c :: r else l
    | _ => l
  match readMantissa isHexDigit l1 with
  | none => none
  | some (ids, fds, rest) =>
      if ids ++ fds = [] then none
      else
        match parseHexExponent rest with
        | none => none
        | some e =>
            some ((hexDigitsToNat (ids ++ fds) : ℚ) * (2 : ℚ) ^ (e - 4 * fds.length))

/-- Syntax and value of `strconv.ParseFloat` on a character list: the
special `nan` form (unsigned), an optionally signed `inf`/`infinity`,
or a signed decimal/hexadecimal literal; `none` models `ErrSyntax`.
Values are exact rationals (the rounding to the nearest double and the
`ErrRange` overflow case are not modelled; no claim depends on them). -/
def parseFloatCore (l : List Char) : Option GoFloat :=
  if l.map Char.toLower = "nan".data then some .nan
  else
    let (neg, l1) : Bool × List Char :=
      match l with
      | '+' :: r => (false, r)
      | '-' :: r => (true, r)
      | r => (false, r)
    if l1.map Char.toLower = "inf".data ∨ l1.map Char.toLower = "infinity".data then
      some (.inf neg)
    else
      let dec : Option ℚ :=
        match l1 with
        | '0' :: c :: r => if c = 'x' ∨ c = 'X' then parseHexFloat r else parseDecimalFloat l1
        | _ => parseDecimalFloat l1
      match dec with
      | some q => some (.finite (if neg then -q else q))
      | none => none

/-- `strconv.ParseFloat(s, 64)` as used by `parseFreq`. -/
def ParseFloat (s : String) : Option GoFloat := parseFloatCore s.data

/-- `parseFreq` of `tone/Tone.go`: look the token up in `noteMap`,
otherwise fall back to `strconv.ParseFloat`, whose syntax error names
the offending token. -/
def parseFreq (s : String) : Except String GoFloat :=
  match List.lookup s noteMap with
  | some f => .ok (.finite f)
  | none =>
      match ParseFloat s with
      | some f => .ok f
      | none => .error (numErrSyntax "ParseFloat" s)

/-- `strings.TrimSuffix`: drop the suffix when present. -/
def TrimSuffix (s suffix : String) : String :=
  if suffix.data.isSuffixOf s.data then
    ⟨s.data.take (s.data.length - suffix.data.length)⟩
  else s

/-- `parseDuration` of `tone/Tone.go`: strip a trailing `ms`, parse the
remainder with `strconv.Atoi`, and scale to a `time.Duration` (an int64
count of nanoseconds, hence the wrap). -/
def parseDuration (s : String) : Except String Int :=
  match Atoi (TrimSuffix s "ms") with
  | .error e => .error e
  | .ok ms => .ok (wrap64 (ms * millisecond))

/-- A parsed DSL instruction (`Command` of `tone/Tone.go`); the loop body
is the recursively parsed nested program. -/
inductive Command where
  | tone (freq : GoFloat) (duration : Int)
  | delay (duration : Int)
  | loop (count : Int) (commands : List Command)

/-- Updated brace balance after one token. -/
def newBC (t : String) (bc : Nat) : Nat :=
  if t = "\x7b" then bc + 1 else if t = "\x7d" then bc - 1 else bc

/-- The closing-brace scan of the `loop` case of `parseCommands`: walk the
tokens keeping the brace balance (starting from `bc`), and return the body
(tokens before the matching `\x7d`) with the tokens after it; `none` when
the balance never returns to zero. -/
def splitLoopBody (l : List String) (bc : Nat) :
    Option (List String × List String) :=
  match l with
  | [] => none
  | t :: rest =>
      if newBC t bc = 0 then some ([], rest)
      else
        match splitLoopBody rest (newBC t bc) with
        | some (body, after) => some (t :: body, after)
        | none => none

/-- `parseCommands` of `tone/Tone.go` on the whitespace-split token list:
`tone` takes a frequency and a duration, `delay` a duration, `loop` a
count followed by a braced body parsed recursively; unknown tokens are
skipped; any sub-parse error aborts the whole parse with no program.
Every recursive call is on a strictly shorter token list, so the
structural fuel (instantiated with the list length by `parseTokens`, and
irrelevant beyond that bound by `parseTokensF_fuel`) never runs out. -/
def parseTokensF : Nat → List String → Except String (List Command)
  | _, [] => .ok []
  | 0, _ :: _ => .error "unreachable: fuel exhausted"
  | fuel + 1, "tone" :: rest =>
      match rest with
      | f :: d :: rest2 => do
          let freq ← parseFreq f
          let dur ← parseDuration d
          let cmds ← parseTokensF fuel rest2
          pure (Command.tone freq dur :: cmds)
      | _ => .error "tone needs 2 parameters"
  | fuel + 1, "delay" :: rest =>
      match rest with
      | d :: rest2 => do
          let dur ← parseDuration d
          let cmds ← parseTokensF fuel rest2
          pure (Command.delay dur :: cmds)
      | [] => .error "delay needs 1 parameter"
  | fuel + 1, "loop" :: rest =>
      match rest with
      | c :: "\x7b" :: rest2 => do
          let count ← Atoi c
          match splitLoopBody rest2 1 with
          | some (body, after) => do
              let inner ← parseTokensF fuel body
              let cmds ← parseTokensF fuel after
              pure (Command.loop count inner :: cmds)
          | none => .error "closing \x7d missing"
      | _ => .error "loop syntax: loop COUNT \x7b ... \x7d"
  | fuel + 1, _ :: rest => parseTokensF fuel rest

/-- `parseCommands` on a token list, with sufficient fuel. -/
def parseTokens (l : List String) : Except String (List Command) :=
  parseTokensF l.length l

/-- Accumulating splitter behind `Fields`: `acc` holds the characters of
the current field in reverse. -/
def fieldsCore : List Char → List Char → List String
  | [], acc => if acc.isEmpty then [] else [String.mk acc.reverse]
  | c :: r, acc =>
      if c.isWhitespace then
        if acc.isEmpty then fieldsCore r []
        else String.mk acc.reverse :: fieldsCore r []
      else fieldsCore r (c :: acc)

/-- `strings.Fields`: split on runs of whitespace, dropping empty fields. -/
def Fields (s : String) : List String := fieldsCore s.data []

/-- `parseCommands` on the raw pattern script. -/
def parseCommands (input : String) : Except String (List Command) :=
  parseTokens (Fields input)

/-- One observable playback step of `executeCommands`: a synthesized tone
or a blocking delay. -/
inductive ToneEvent where
  | tone (freq : GoFloat) (duration : Int)
  | delay (duration : Int)
  deriving DecidableEq

/-- Concatenate `n` copies of a list. -/
def repeatList (n : Nat) (l : List ToneEvent) : List ToneEvent :=
  match n with
  | 0 => []
  | n + 1 => l ++ repeatList n l

mutual

/-- The event trace of one instruction: a `tone` or `delay` is one event,
a `loop` re-executes the trace of its body `count` times (negative counts
run zero times, as the Go counting loop does). -/
def executeOne : Command → List ToneEvent
  | .tone f d => [.tone f d]
  | .delay d => [.delay d]
  | .loop n body => repeatList n.toNat (executeCommands body)

/-- The event trace of `executeCommands`: depth-first and in order. -/
def executeCommands : List Command → List ToneEvent
  | [] => []
  | c :: cs => executeOne c ++ executeCommands cs

end

/-- Number of tone emissions in a trace. -/
def countTones (l : List ToneEvent) : Nat :=
  l.countP fun e => match e with | ToneEvent.tone _ _ => true | _ => false

/-- Number of delays in a trace. -/
def countDelays (l : List ToneEvent) : Nat :=
  l.countP fun e => match e with | ToneEvent.delay _ => true | _ => false

/-- The alarm source kinds of `config/config.go`. -/
inductive AlarmSource where
  | buzzer
  | soother
  | mp3
  | radio
  deriving DecidableEq

/-- An alarm definition (`config.Alarm`). -/
structure Alarm where
  id : Int
  enabled : Bool
  time : String
  days : List Bool
  source : AlarmSource
  volume : Int
  alarmSourceValue : String
  volumeRamp : Bool
  deriving DecidableEq

/-- The configuration fields the scheduler and player read
(`config.Config`; display-only fields are omitted). -/
structure Config where
  alarm1 : Alarm
  alarm2 : Alarm
  snoozeMinutes : Int
  playerCommand : String
  lastRadioURL : String
  lastMP3Path : String
  deriving DecidableEq

/-- A wall-clock instant as the scheduler observes it: the absolute
instant in nanoseconds (for `Sub`/`After` comparisons) together with the
clock readings that `Weekday` and `Format` report.  `weekday` follows Go,
Sunday = 0. -/
structure GoTime where
  abs : Int
  weekday : Fin 7
  hour : Fin 24
  minute : Fin 60
  second : Fin 60
  deriving DecidableEq

/-- Two-digit zero padding, as Go layout `15`, `04`, `05` produce. -/
def pad2 (n : Nat) : String :=
  if n < 10 then "0" ++ toString n else toString n

/-- `t.Format("15:04:05")`. -/
def format150405 (t : GoTime) : String :=
  pad2 t.hour ++ ":" ++ pad2 t.minute ++ ":" ++ pad2 t.second

/-- The normalization step inside `IsAlarmActive`: an `HH:MM` alarm time
gets `":00"` appended, anything else is used as is. -/
def normalizeAlarmTime (s : String) : String :=
  if s.length = 5 then s ++ ":00" else s

/-- `(*Alarm).IsAlarmActive` of `config/config.go`: enabled, the bit of
the current weekday set in the day mask, and the formatted `HH:MM:SS`
string equal to the normalized alarm time. -/
def IsAlarmActive (a : Alarm) (t : GoTime) : Bool :=
  a.enabled && a.days.getD t.weekday.val false &&
    (format150405 t == normalizeAlarmTime a.time)

/-- The alarm instance states of the manager. -/
inductive AlarmState where
  | off
  | active
  | snoozed
  | triggered
  deriving DecidableEq

/-- An `ActiveAlarm` record of the manager (the unused `Duration` field
and the back-pointer to the definition are omitted; instances are keyed
by the alarm id in the map). -/
structure ActiveAlarm where
  state : AlarmState
  startTime : Int
  snoozeUntil : Int
  deriving DecidableEq

/-- The `activeAlarms` map of the manager, as an association list keyed by
alarm id (the Go map has distinct keys). -/
abbrev AlarmMap : Type := List (Nat × ActiveAlarm)

/-- The instance `triggerAlarm` creates: state Triggered, start time now,
zero-value snooze deadline. -/
def triggeredAt (now : GoTime) : ActiveAlarm :=
  { state := .triggered, startTime := now.abs, snoozeUntil := 0 }

/-- The alarm-1 step of `checkAlarms`: if `IsAlarmActive` holds and no
instance with id 1 exists, create a Triggered instance (the trigger
callback only notifies collaborators). -/

def checkAlarm1 (cfg : Config) (now : GoTime) (st : AlarmMap) : AlarmMap :=
  if IsAlarmActive cfg.alarm1 now ∧ List.lookup 1 st = none then
    (1, triggeredAt now) :: st
  else st

/-- The alarm-2 step of `checkAlarms`, likewise for id 2. -/
def checkAlarm2 (cfg : Config) (now : GoTime) (st : AlarmMap) : AlarmMap :=
  if IsAlarmActive cfg.alarm2 now ∧ List.lookup 2 st = none then
    (2, triggeredAt now) :: st
  else st

/-- `(*Manager).checkAlarms`: the alarm-1 check followed by the alarm-2
check, exactly as the Go method runs them. -/
def checkAlarms (cfg : Config) (now : GoTime) (st : AlarmMap) : AlarmMap :=
  checkAlarm2 cfg now (checkAlarm1 cfg now st)

/-- The per-instance step of `updateActiveAlarms`: a Triggered instance
whose age reaches 60 minutes is removed (`stopAlarmInternal`); a Snoozed
instance whose deadline has passed re-enters Triggered (keeping its start
time); anything else is untouched. -/

def updateOne (now : Int) (p : Nat × ActiveAlarm) : Option (Nat × ActiveAlarm) :=
  match p.2.state with
  | .triggered =>
      if 60 * minuteNs ≤ now - p.2.startTime then none else some p
  | .snoozed =>
      if p.2.snoozeUntil < now then
        some (p.1, { p.2 with state := .triggered })
      else some p
  | _ => some p

/-- `(*Manager).updateActiveAlarms`: apply `updateOne` to every active
instance. -/

def updateActiveAlarms (now : Int) (st : AlarmMap) : AlarmMap :=
  st.filterMap (updateOne now)

/-- One pass of the monitor loop of the manager at instant `now`:
`checkAlarms` then `updateActiveAlarms`. -/
def tickAlarms (cfg : Config) (now : GoTime) (st : AlarmMap) : AlarmMap :=
  updateActiveAlarms now.abs (checkAlarms cfg now st)

/-- Replace the record stored under `id`. -/
def replaceAlarm (id : Nat) (a : ActiveAlarm) (st : AlarmMap) : AlarmMap :=
  st.map fun p => if p.1 = id then (id, a) else p

/-- `(*Manager).SnoozeAlarm`: only a Triggered instance can be snoozed;
on success it becomes Snoozed until now plus the configured minutes and
`true` is returned, otherwise `false` with the map untouched. -/
def SnoozeAlarm (cfg : Config) (nowAbs : Int) (id : Nat) (st : AlarmMap) :
    Bool × AlarmMap :=
  match List.lookup id st with
  | none => (false, st)
  | some a =>
      if a.state = .triggered then
        (true, replaceAlarm id
          { a with state := .snoozed,
                   snoozeUntil := nowAbs + cfg.snoozeMinutes * minuteNs } st)
      else (false, st)

/-- The valid values of `SetSnoozeTime`. -/
def validSnoozeMinutes : List Int := [5, 7, 10, 15, 30, 45, 60, 90, 120]

/-- `(*Manager).SetSnoozeTime`: the snooze preference is updated only
when the requested value is in the fixed list; any other value leaves
the configuration unchanged (the method reports nothing). -/
def SetSnoozeTime (minutes : Int) (cfg : Config) : Config :=
  if minutes ∈ validSnoozeMinutes then { cfg with snoozeMinutes := minutes }
  else cfg

/-- The two timer slots of the timer manager. -/
inductive TimerType where
  | sleep
  | snooze
  deriving DecidableEq

/-- A `timer.Timer` record. -/
structure Timer where
  typ : TimerType
  startTime : Int
  duration : Int
  endTime : Int
  isActive : Bool
  deriving DecidableEq

/-- The `activeTimers` map of the timer manager, keyed by the two slot types. -/
structure TimerState where
  sleep : Option Timer
  snooze : Option Timer
  deriving DecidableEq

/-- `(*Manager).StartSleepTimer`: minutes outside the continuous 5..120
range are rejected before anything is touched; otherwise a fresh sleep
timer replaces whatever was in the slot and `true` is returned. -/
def StartSleepTimer (nowAbs : Int) (minutes : Int) (st : TimerState) :
    Bool × TimerState :=
  if minutes < 5 ∨ 120 < minutes then (false, st)
  else
    let duration := minutes * minuteNs
    let t : Timer :=
      { typ := .sleep, startTime := nowAbs, duration := duration,
        endTime := nowAbs + duration, isActive := true }
    (true, { st with sleep := some t })

/-- One entry reported by the `filepath.Walk` in `findToneFiles`: the
full path, the base name the walk callback checks, and whether it is a
directory. -/
structure WalkEntry where
  path : String
  name : String
  isDir : Bool

/-- `findToneFiles` of `audio/audio.go` over the entries the walk visits
(in lexical path order, as `filepath.Walk` guarantees; walk errors are
swallowed so failed entries simply do not appear): keep the paths of
non-directories whose lowercased name ends in `.tone`. -/
def findToneFiles (entries : List WalkEntry) : List String :=
  (entries.filter fun e => !e.isDir && e.name.toLower.endsWith ".tone").map
    fun e => e.path

/-- The playback a successful `PlayAlarm` starts: the tone engine on a
pattern file, or an external player process with its argument list. -/
inductive PlayAction where
  | playTone (file : String)
  | externalPlayer (cmd : String) (args : List String)
  deriving DecidableEq

/-- `startPlayback` of `audio/audio.go`, up to the spawn itself: an empty
path is a hard error, otherwise the external player command is assembled
from the path, the volume flag (ramping starts at a quarter of the
target) and the loop flag. -/
def startPlayback (playerCommand : String) (audioPath : String)
    (volume : Int) (rampVolume : Bool) : Except String PlayAction :=
  if audioPath = "" then .error "empty audio path"
  else
    let volumePercent := if rampVolume then max 1 (volume / 4) else volume
    let args :=
      if 0 < volume ∧ volume ≤ 100 then
        [audioPath, "--volume", toString volumePercent, "--loop"]
      else [audioPath, "--loop"]
    .ok (.externalPlayer playerCommand args)

/-- `(*Player).PlayAlarm` of `audio/audio.go` (the tone-file-aware
player), reduced to its source resolution: buzzer and soother use the
explicit `AlarmSourceValue` when non-empty, else the first discovered
tone file of their directory, else fail with a hard error before any
playback state is touched; mp3 and radio go through `startPlayback` with
the configured fallback paths. -/
def PlayAlarm (cfg : Config) (buzzerFiles sootherFiles : List String)
    (alarm : Alarm) : Except String PlayAction :=
  match alarm.source with
  | .buzzer =>
      if alarm.alarmSourceValue ≠ "" then .ok (.playTone alarm.alarmSourceValue)
      else
        match buzzerFiles with
        | f :: _ => .ok (.playTone f)
        | [] => .error "no buzzer .tone files found"
  | .soother =>
      if alarm.alarmSourceValue ≠ "" then .ok (.playTone alarm.alarmSourceValue)
      else
        match sootherFiles with
        | f :: _ => .ok (.playTone f)
        | [] => .error "no soother .tone files found"
  | .mp3 =>
      let audioPath :=
        if alarm.alarmSourceValue = "" then cfg.lastMP3Path
        else alarm.alarmSourceValue
      startPlayback cfg.playerCommand audioPath alarm.volume alarm.volumeRamp
  | .radio =>
      let audioPath :=
        if alarm.alarmSourceValue = "" then cfg.lastRadioURL
        else alarm.alarmSourceValue
      startPlayback cfg.playerCommand audioPath alarm.volume alarm.volumeRamp

def demoAlarm : Alarm :=
  { id := 1, enabled := true, time := "07:00:00",
    days := [false, true, true, true, true, true, false],
    source := .buzzer, volume := 50, alarmSourceValue := "", volumeRamp := true }

def demoConfig : Config :=
  { alarm1 := demoAlarm, alarm2 := { demoAlarm with id := 2, time := "07:30" },
    snoozeMinutes := 5, playerCommand := "mpv",
    lastRadioURL := "", lastMP3Path := "" }

def c2Script : String := "tone A4 200ms delay 100ms loop 3 \x7b tone C5 50ms \x7d"

def c2ScriptAmended : String :=
  "tone NOTE_A4 200ms delay 100ms loop 3 \x7b tone NOTE_C5 50ms \x7d"

def c2Program : List Command :=
  [Command.tone (.finite 440) (200 * millisecond),
   Command.delay (100 * millisecond),
   Command.loop 3 [Command.tone (.finite 523) (50 * millisecond)]]

def demoTriggered : ActiveAlarm := { state := .triggered, startTime := 0, snoozeUntil := 0 }

def demoTime : GoTime := { abs := 0, weekday := 1, hour := 7, minute := 0, second := 0 }

theorem splitLoopBody_length (l : List String) (bc : Nat)
    (body after : List String) (h : splitLoopBody l bc = some (body, after)) :
    body.length + after.length < l.length := by
  induction l generalizing bc body after with
  | nil => simp [splitLoopBody] at h
  | cons t rest ih =>
      rw [splitLoopBody] at h
      split at h
      · cases h
        simp
      · cases h2 : splitLoopBody rest (newBC t bc) with
        | none => rw [h2] at h; cases h
        | some p =>
            rw [h2] at h
            cases p with
            | mk b a =>
                simp only [Option.some.injEq, Prod.mk.injEq] at h
                obtain ⟨h3, h4⟩ := h
                subst h3 h4
                have := ih _ _ _ h2
                simp only [List.length_cons]
                omega

/-- The fuel is irrelevant as soon as it bounds the token count, so
`parseTokens` computes the unbounded recursion of the Go parser. -/
theorem parseTokensF_fuel : ∀ (f1 : Nat) (l : List String) (f2 : Nat),
    l.length ≤ f1 → l.length ≤ f2 → parseTokensF f1 l = parseTokensF f2 l := by
  intro f1 l
  induction f1, l using parseTokensF.induct with
  | case1 t => intro f2 _ _; cases t <;> cases f2 <;> rfl
  | case2 head tail => intro f2 h1 _; simp at h1
  | case3 fuel f d rest2 ih =>
      intro f2 h1 h2
      cases f2 with
      | zero => simp at h2
      | succ f2' =>
          simp only [parseTokensF]
          rw [ih f2' (by simp at h1; omega) (by simp at h2; omega)]
  | case4 fuel rest hshape =>
      intro f2 h1 h2
      cases f2 with
      | zero => simp at h2
      | succ f2' =>
          cases rest with
          | nil => rfl
          | cons f rest1 =>
              cases rest1 with
              | nil => rfl
              | cons d rest2 => exact (hshape f d rest2 rfl).elim
  | case5 fuel d rest2 ih =>
      intro f2 h1 h2
      cases f2 with
      | zero => simp at h2
      | succ f2' =>
          simp only [parseTokensF]
          rw [ih f2' (by simp at h1; omega) (by simp at h2; omega)]
  | case6 fuel =>
      intro f2 h1 h2
      cases f2 with
      | zero => simp at h2
      | succ f2' => rfl
  | case7 fuel c rest2 ih =>
      intro f2 h1 h2
      cases f2 with
      | zero => simp at h2
      | succ f2' =>
          simp only [parseTokensF]
          cases hs : splitLoopBody rest2 1 with
          | none => rfl
          | some p =>
              cases p with
              | mk body after =>
                  have hlen := splitLoopBody_length rest2 1 body after hs
                  simp at h1 h2
                  simp only [ih body f2' (by omega) (by omega),
                    ih after f2' (by omega) (by omega)]
  | case8 fuel rest hshape =>
      intro f2 h1 h2
      cases f2 with
      | zero => simp at h2
      | succ f2' =>
          cases rest with
          | nil => rfl
          | cons c rest1 =>
              cases rest1 with
              | nil => rfl
              | cons x rest2 =>
                  have hx : x ≠ "\x7b" := fun h => hshape c rest2 (by rw [h])
                  simp [parseTokensF, hx]
  | case9 fuel head rest h1' h2' h3' ih =>
      intro f2 h1 h2
      cases f2 with
      | zero => simp at h2
      | succ f2' =>
          have e1 : parseTokensF (fuel + 1) (head :: rest) = parseTokensF fuel rest := by
            simp [parseTokensF, fun h => h1' h, fun h => h2' h, fun h => h3' h]
          have e2 : parseTokensF (f2' + 1) (head :: rest) = parseTokensF f2' rest := by
            simp [parseTokensF, fun h => h1' h, fun h => h2' h, fun h => h3' h]
          rw [e1, e2, ih f2' (by simp at h1; omega) (by simp at h2; omega)]

/-- C8: StartSleepTimer(m) succeeds for every m in the continuous range
5 to 120 minutes, replacing any existing sleep timer with one ending at
now plus m minutes, and for every m outside that range it returns failure
without creating or modifying any timer. -/
theorem claim_C8 (nowAbs m : Int) (st : TimerState) :
    (5 ≤ m ∧ m ≤ 120 →
      StartSleepTimer nowAbs m st =
        (true, { st with sleep := some (Timer.mk .sleep nowAbs (m * minuteNs) (nowAbs + m * minuteNs) true) })) ∧
    (m < 5 ∨ 120 < m → StartSleepTimer nowAbs m st = (false, st)) := by
  constructor
  · rintro ⟨h1, h2⟩
    unfold StartSleepTimer
    rw [if_neg (by omega)]
  · intro h
    unfold StartSleepTimer
    rw [if_pos h]

theorem claim_C8_witness :
    StartSleepTimer 0 30 ⟨none, none⟩ =
      (true, ⟨some (Timer.mk .sleep 0 (30 * minuteNs) (0 + 30 * minuteNs) true), none⟩) ∧
    StartSleepTimer 0 121 ⟨none, none⟩ = (false, ⟨none, none⟩) :=
  ⟨(claim_C8 0 30 ⟨none, none⟩).1 ⟨by decide, by decide⟩,
   (claim_C8 0 121 ⟨none, none⟩).2 (Or.inr (by decide))⟩

/-- C9: SetSnoozeMinutes(n) updates the configured snooze duration to n
if and only if n is one of 5, 7, 10, 15, 30, 45, 60, 90, 120; for every
other n the configuration is left entirely unchanged and no error is
reported (the operation is total). -/
theorem claim_C9 (m : Int) (cfg : Config) :
    (m ∈ validSnoozeMinutes → SetSnoozeTime m cfg = { cfg with snoozeMinutes := m }) ∧
    (m ∉ validSnoozeMinutes → SetSnoozeTime m cfg = cfg) := by
  constructor <;> intro h <;> simp [SetSnoozeTime, h]

theorem claim_C9_witness :
    SetSnoozeTime 7 demoConfig = { demoConfig with snoozeMinutes := 7 } ∧
    SetSnoozeTime 8 demoConfig = demoConfig :=
  ⟨(claim_C9 7 demoConfig).1 (by decide), (claim_C9 8 demoConfig).2 (by decide)⟩

/-- C5: resolving a buzzer (or soother) source in PlayAlarm uses the
explicitly configured pattern-file path when it is non-empty; when it is
empty it uses the first file of the directory-discovery list, which is
the lexicographically smallest discovered path because the walk reports
entries in lexical order; and when both the explicit path and the
discovery list are empty it returns a hard error and no playback action. -/
theorem claim_C5 (cfg : Config) (buzzerFiles sootherFiles : List String) (alarm : Alarm) :
    (alarm.source = .buzzer ∨ alarm.source = .soother →
      alarm.alarmSourceValue ≠ "" →
      PlayAlarm cfg buzzerFiles sootherFiles alarm = .ok (.playTone alarm.alarmSourceValue)) ∧
    (alarm.source = .buzzer → alarm.alarmSourceValue = "" →
      ∀ f fs, buzzerFiles = f :: fs →
        PlayAlarm cfg buzzerFiles sootherFiles alarm = .ok (.playTone f)) ∧
    (alarm.source = .soother → alarm.alarmSourceValue = "" →
      ∀ f fs, sootherFiles = f :: fs →
        PlayAlarm cfg buzzerFiles sootherFiles alarm = .ok (.playTone f)) ∧
    (alarm.source = .buzzer → alarm.alarmSourceValue = "" → buzzerFiles = [] →
      PlayAlarm cfg buzzerFiles sootherFiles alarm = .error "no buzzer .tone files found") ∧
    (alarm.source = .soother → alarm.alarmSourceValue = "" → sootherFiles = [] →
      PlayAlarm cfg buzzerFiles sootherFiles alarm = .error "no soother .tone files found") ∧
    (∀ entries h t, List.Pairwise (· ≤ ·) (entries.map WalkEntry.path) →
      findToneFiles entries = h :: t → ∀ f ∈ t, h ≤ f) := by
  refine ⟨?_, ?_, ?_, ?_, ?_, ?_⟩
  · rintro (hs | hs) hv <;> simp [PlayAlarm, hs, hv]
  · rintro hs hv f fs hf
    simp [PlayAlarm, hs, hv, hf]
  · rintro hs hv f fs hf
    simp [PlayAlarm, hs, hv, hf]
  · rintro hs hv hf
    simp [PlayAlarm, hs, hv, hf]
  · rintro hs hv hf
    simp [PlayAlarm, hs, hv, hf]
  · intro entries h t hsorted heq f hf
    have hsub : List.Sublist (findToneFiles entries) (entries.map WalkEntry.path) := by
      unfold findToneFiles
      have h1 : List.Sublist
          (entries.filter fun e => !e.isDir && e.name.toLower.endsWith ".tone") entries :=
        List.filter_sublist entries
      simpa using h1.map WalkEntry.path
    have hp : (findToneFiles entries).Pairwise (· ≤ ·) := hsorted.sublist hsub
    rw [heq] at hp
    exact (List.pairwise_cons.mp hp).1 f hf

theorem claim_C5_witness :
    PlayAlarm demoConfig ["a.tone", "b.tone"] [] demoAlarm = .ok (.playTone "a.tone") ∧
    PlayAlarm demoConfig [] [] demoAlarm = .error "no buzzer .tone files found" :=
  ⟨(claim_C5 demoConfig ["a.tone", "b.tone"] [] demoAlarm).2.1 rfl rfl "a.tone" ["b.tone"] rfl,
   (claim_C5 demoConfig [] [] demoAlarm).2.2.2.1 rfl rfl rfl⟩

theorem isSuffixOf_iff' {l1 l2 : List Char} : l1.isSuffixOf l2 = true ↔ l1 <:+ l2 := by
  simp [List.isSuffixOf, List.isPrefixOf_iff_prefix, List.reverse_prefix]

theorem atoiCore_getLast_digit (l : List Char) (v : Int)
    (h : atoiCore l = some v) : ∃ c, l.getLast? = some c ∧ c.isDigit = true := by
  have key : ∀ (r : List Char), r ≠ [] → r.all Char.isDigit = true →
      ∃ c, r.getLast? = some c ∧ c.isDigit = true := by
    intro r hne hall
    obtain ⟨c, hc⟩ := Option.ne_none_iff_exists'.mp
      (mt List.getLast?_eq_none_iff.mp hne)
    refine ⟨c, hc, ?_⟩
    have hmem : c ∈ r := by
      obtain ⟨h1, h2⟩ := List.mem_getLast?_eq_getLast (l := r) (x := c) hc
      subst h2
      exact List.getLast_mem h1
    exact List.all_eq_true.mp hall c hmem
  rw [atoiCore.eq_def] at h
  split at h
  · rename_i r
    split at h
    · rename_i hcond
      obtain ⟨c, hc, hd⟩ := key r hcond.1 hcond.2
      exact ⟨c, by simp [List.getLast?_cons, hc], hd⟩
    · cases h
  · rename_i r
    split at h
    · rename_i hcond
      obtain ⟨c, hc, hd⟩ := key r hcond.1 hcond.2
      exact ⟨c, by simp [List.getLast?_cons, hc], hd⟩
    · cases h
  · split at h
    · rename_i hcond
      exact key l hcond.1 hcond.2
    · cases h

theorem TrimSuffix_of_atoi (s : String) (n : Int) (h : Atoi s = .ok n) :
    TrimSuffix s "ms" = s := by
  unfold Atoi at h
  cases hc : atoiCore s.data with
  | none => rw [hc] at h; cases h
  | some v =>
      obtain ⟨c, hlast, hdig⟩ := atoiCore_getLast_digit s.data v hc
      unfold TrimSuffix
      rw [if_neg]
      intro hsuf
      have hx : "ms".data <:+ s.data := isSuffixOf_iff'.mp hsuf
      obtain ⟨t, ht⟩ := hx
      rw [← ht] at hlast
      have : (t ++ "ms".data).getLast? = some 's' := by
        simp [List.getLast?_append]
      rw [this] at hlast
      cases hlast
      cases hdig

theorem TrimSuffix_append_ms (s : String) : TrimSuffix (s ++ "ms") "ms" = s := by
  unfold TrimSuffix
  rw [if_pos]
  · show String.mk (((s ++ "ms").data).take ((s ++ "ms").data.length - "ms".data.length)) = s
    rw [String.data_append]
    have : (s.data ++ "ms".data).length - "ms".data.length = s.data.length := by
      simp
    rw [this, List.take_left]
  · rw [String.data_append, isSuffixOf_iff']
    exact List.suffix_append s.data "ms".data

/-- C10: parseDuration strips a trailing ms suffix if present and parses
the remainder with Atoi, so every integer string s and its s ++ "ms"
form parse to the same duration, namely s milliseconds (as the int64
nanosecond count, exact whenever it is representable). -/
theorem claim_C10 (s : String) (n : Int) (h : Atoi s = .ok n) :
    parseDuration s = .ok (wrap64 (n * millisecond)) ∧
    parseDuration (s ++ "ms") = .ok (wrap64 (n * millisecond)) ∧
    (-(2 ^ 63) ≤ n * millisecond → n * millisecond < 2 ^ 63 →
      wrap64 (n * millisecond) = n * millisecond) := by
  refine ⟨?_, ?_, ?_⟩
  · unfold parseDuration
    rw [TrimSuffix_of_atoi s n h, h]
  · unfold parseDuration
    rw [TrimSuffix_append_ms s, h]
  · intro h1 h2
    unfold wrap64
    omega

theorem claim_C10_witness :
    parseDuration "200" = .ok (wrap64 (200 * millisecond)) ∧
    parseDuration ("200" ++ "ms") = .ok (wrap64 (200 * millisecond)) ∧
    wrap64 ((200 : Int) * millisecond) = 200 * millisecond :=
  ⟨(claim_C10 "200" 200 rfl).1, (claim_C10 "200" 200 rfl).2.1,
   (claim_C10 "200" 200 rfl).2.2 (by decide) (by decide)⟩

/-- C6: every frequency token found in the fixed note table resolves to
its tabulated Hz value; a token neither in the table nor numeric makes
parseFreq fail with an error that contains the offending token, and that
failure aborts the whole parse of a tone instruction with the same
error, producing no program. -/
theorem claim_C6 :
    (∀ s f, List.lookup s noteMap = some f →
      parseFreq s = .ok (GoFloat.finite f)) ∧
    (∀ s, List.lookup s noteMap = none → ParseFloat s = none →
      parseFreq s = .error (numErrSyntax "ParseFloat" s) ∧
      ∃ pre post, numErrSyntax "ParseFloat" s = pre ++ s ++ post) ∧
    (∀ s d rest, List.lookup s noteMap = none → ParseFloat s = none →
      parseTokens ("tone" :: s :: d :: rest) =
        .error (numErrSyntax "ParseFloat" s)) := by
  refine ⟨?_, ?_, ?_⟩
  · intro s f h
    simp [parseFreq, h]
  · intro s h1 h2
    refine ⟨by simp [parseFreq, h1, h2], "strconv.ParseFloat: parsing \"", "\": invalid syntax", ?_⟩
    simp [numErrSyntax]
  · intro s d rest h1 h2
    have hf : parseFreq s = .error (numErrSyntax "ParseFloat" s) := by
      simp [parseFreq, h1, h2]
    show parseTokensF (("tone" :: s :: d :: rest).length) ("tone" :: s :: d :: rest) =
      .error (numErrSyntax "ParseFloat" s)
    simp only [List.length_cons]
    show parseTokensF (rest.length + 2 + 1) ("tone" :: s :: d :: rest) =
      .error (numErrSyntax "ParseFloat" s)
    simp only [parseTokensF, hf]
    rfl

theorem claim_C6_witness :
    parseFreq "NOTE_A4" = .ok (GoFloat.finite 440) ∧
    parseTokens ["tone", "XY", "100ms"] = .error (numErrSyntax "ParseFloat" "XY") :=
  ⟨claim_C6.1 "NOTE_A4" 440 rfl, claim_C6.2.2 "XY" "100ms" [] rfl rfl⟩

theorem splitLoopBody_none (l : List String) (bc : Nat) (hbc : bc ≠ 0)
    (h : "\x7d" ∉ l) : splitLoopBody l bc = none := by
  induction l generalizing bc with
  | nil => rfl
  | cons t rest ih =>
      have ht : t ≠ "\x7d" := fun he => h (he ▸ List.mem_cons_self t rest)
      have hbc2 : newBC t bc ≠ 0 := by
        unfold newBC
        split
        · omega
        · exact hbc
      rw [splitLoopBody, if_neg hbc2, ih (newBC t bc) hbc2 (fun hm => h (List.mem_cons_of_mem t hm))]

/-- C7: parsing "loop 3 tone A4 100ms" (count not followed by an opening
brace) fails with the descriptive loop-syntax error; more generally any
loop whose count is not followed by an opening brace fails the same way,
a truncated loop header fails the same way, and a loop body with no
closing brace fails with the closing-brace error; an Except.error result
carries no instructions, so no partial program is produced. -/
theorem claim_C7 :
    parseCommands "loop 3 tone A4 100ms" = .error "loop syntax: loop COUNT \x7b ... \x7d" ∧
    (∀ c x rest, x ≠ "\x7b" →
      parseTokens ("loop" :: c :: x :: rest) = .error "loop syntax: loop COUNT \x7b ... \x7d") ∧
    (parseTokens ["loop"] = .error "loop syntax: loop COUNT \x7b ... \x7d") ∧
    (∀ c, parseTokens ["loop", c] = .error "loop syntax: loop COUNT \x7b ... \x7d") ∧
    (∀ c n rest, Atoi c = .ok n → "\x7d" ∉ rest →
      parseTokens ("loop" :: c :: "\x7b" :: rest) = .error "closing \x7d missing") := by
  refine ⟨by rfl, ?_, by rfl, ?_, ?_⟩
  · intro c x rest hx
    show parseTokensF (rest.length + 2 + 1) ("loop" :: c :: x :: rest) = _
    simp [parseTokensF, hx]
  · intro c
    rfl
  · intro c n rest hc hrest
    have hsplit := splitLoopBody_none rest 1 (by omega) hrest
    show parseTokensF (rest.length + 2 + 1) ("loop" :: c :: "\x7b" :: rest) = _
    simp only [parseTokensF, hc, hsplit]
    rfl

theorem claim_C7_witness :
    parseTokens ["loop", "3", "tone"] = .error "loop syntax: loop COUNT \x7b ... \x7d" ∧
    parseTokens ["loop", "2", "\x7b", "delay", "10ms"] = .error "closing \x7d missing" :=
  ⟨claim_C7.2.1 "3" "tone" [] (by decide),
   claim_C7.2.2.2.2 "2" 2 ["delay", "10ms"] rfl (by decide)⟩

/-- C2 counterexample: the pattern script of the claim spells the notes
A4 and C5, but the note table keys are NOTE_A4 and NOTE_C5, so the parse
of the claimed script fails on the token A4 instead of producing the
claimed three-instruction program. -/
theorem claim_C2_counterexample :
    parseCommands c2Script = .error (numErrSyntax "ParseFloat" "A4") := by rfl

/-- C2 amended: with the table spellings NOTE_A4 and NOTE_C5 the script
parses to exactly the three-instruction program Tone(440 Hz, 200 ms),
Delay(100 ms), Loop(3, [Tone(523 Hz, 50 ms)]), and executing that
program performs 4 tone emissions and 1 delay. -/
theorem claim_C2 :
    parseCommands c2ScriptAmended = .ok c2Program ∧
    countTones (executeCommands c2Program) = 4 ∧
    countDelays (executeCommands c2Program) = 1 := ⟨by rfl, by rfl, by rfl⟩

theorem lookup_replaceAlarm (id : Nat) (b : ActiveAlarm) (st : AlarmMap)
    (a : ActiveAlarm) (h : List.lookup id st = some a) :
    List.lookup id (replaceAlarm id b st) = some b := by
  induction st with
  | nil => cases h
  | cons p rest ih =>
      obtain ⟨k, c⟩ := p
      by_cases hk : k = id
      · subst hk
        show List.lookup k ((if k = k then (k, b) else (k, c)) :: replaceAlarm k b rest) = some b
        rw [if_pos rfl]
        simp [List.lookup]
      · have hk2 : (id == k) = false := by simpa using Ne.symm hk
        simp only [List.lookup, hk2] at h
        show List.lookup id ((if k = id then (id, b) else (k, c)) :: replaceAlarm id b rest) = some b
        rw [if_neg hk]
        simp only [List.lookup, hk2]
        exact ih h

/-- C3: Snooze(id) succeeds if and only if alarm id has an active
instance in state Triggered; on success the instance becomes Snoozed
with snooze-until equal to the current time plus the configured snooze
minutes, and on failure the scheduler state is returned unchanged. -/
theorem claim_C3 (cfg : Config) (nowAbs : Int) (id : Nat) (st : AlarmMap) :
    ((SnoozeAlarm cfg nowAbs id st).1 = true ↔
      ∃ a, List.lookup id st = some a ∧ a.state = .triggered) ∧
    (∀ a, List.lookup id st = some a → a.state = .triggered →
      List.lookup id (SnoozeAlarm cfg nowAbs id st).2 =
        some { a with state := .snoozed,
                      snoozeUntil := nowAbs + cfg.snoozeMinutes * minuteNs }) ∧
    ((SnoozeAlarm cfg nowAbs id st).1 = false →
      (SnoozeAlarm cfg nowAbs id st).2 = st) := by
  refine ⟨?_, ?_, ?_⟩
  · unfold SnoozeAlarm
    cases hl : List.lookup id st with
    | none => simp [hl]
    | some a =>
        by_cases ha : a.state = .triggered
        · simp [hl, ha]
        · simp [hl, ha]
  · intro a hl ha
    have hres : (SnoozeAlarm cfg nowAbs id st).2 = replaceAlarm id
        { a with state := .snoozed,
                 snoozeUntil := nowAbs + cfg.snoozeMinutes * minuteNs } st := by
      unfold SnoozeAlarm
      rw [hl]
      simp [ha]
    rw [hres]
    exact lookup_replaceAlarm id _ st a hl
  · unfold SnoozeAlarm
    cases hl : List.lookup id st with
    | none => intro; rfl
    | some a =>
        by_cases ha : a.state = .triggered
        · simp [ha]
        · simp [ha]

theorem claim_C3_witness :
    ((SnoozeAlarm demoConfig 1000 1 [(1, demoTriggered)]).1 = true) ∧
    List.lookup 1 (SnoozeAlarm demoConfig 1000 1 [(1, demoTriggered)]).2 =
      some { demoTriggered with state := .snoozed, snoozeUntil := 1000 + demoConfig.snoozeMinutes * minuteNs } ∧
    ((SnoozeAlarm demoConfig 1000 2 [(1, demoTriggered)]).1 = false →
      (SnoozeAlarm demoConfig 1000 2 [(1, demoTriggered)]).2 = [(1, demoTriggered)]) :=
  ⟨(claim_C3 demoConfig 1000 1 [(1, demoTriggered)]).1.mpr ⟨demoTriggered, rfl, rfl⟩,
   (claim_C3 demoConfig 1000 1 [(1, demoTriggered)]).2.1 demoTriggered rfl rfl,
   (claim_C3 demoConfig 1000 2 [(1, demoTriggered)]).2.2⟩

theorem updateOne_key (now : Int) (p q : Nat × ActiveAlarm)
    (h : updateOne now p = some q) : q.1 = p.1 := by
  unfold updateOne at h
  split at h
  · split at h
    · cases h
    · cases h; rfl
  · split at h
    · cases h; rfl
    · cases h; rfl
  · cases h; rfl

theorem updateActiveAlarms_cons (now : Int) (p : Nat × ActiveAlarm) (rest : AlarmMap) :
    updateActiveAlarms now (p :: rest) =
      match updateOne now p with
      | none => updateActiveAlarms now rest
      | some q => q :: updateActiveAlarms now rest := by
  unfold updateActiveAlarms
  rw [List.filterMap_cons]
  cases updateOne now p <;> rfl

theorem lookup_none_of_not_mem_keys (k : Nat) (l : AlarmMap)
    (h : k ∉ l.map Prod.fst) : List.lookup k l = none := by
  induction l with
  | nil => rfl
  | cons p rest ih =>
      simp only [List.map_cons, List.mem_cons] at h
      push_neg at h
      obtain ⟨h1, h2⟩ := h
      have hb : (k == p.1) = false := by simpa using h1
      simp only [List.lookup, hb]
      exact ih h2

theorem lookup_update_none (now : Int) (st : AlarmMap) (id : Nat)
    (h : List.lookup id st = none) :
    List.lookup id (updateActiveAlarms now st) = none := by
  induction st with
  | nil => rfl
  | cons p rest ih =>
      simp only [List.lookup] at h
      cases hbeq : (id == p.1) with
      | true => rw [hbeq] at h; cases h
      | false =>
          rw [hbeq] at h
          rw [updateActiveAlarms_cons]
          cases hf : updateOne now p with
          | none => exact ih h
          | some q =>
              have hq := updateOne_key now p q hf
              have hb2 : (id == q.1) = false := by rw [hq]; exact hbeq
              simp only [List.lookup, hb2]
              exact ih h

/-- C4: on any tick, an instance that is Triggered with age (now minus
start time) of at least 60 minutes is removed from the active set by
updateActiveAlarms, and a Triggered instance younger than that survives
the tick unchanged; so the first tick that observes a Triggered instance
aged 60 minutes or more force-stops it. -/
theorem claim_C4 (now : Int) (st : AlarmMap) (hnd : (st.map Prod.fst).Nodup)
    (id : Nat) (a : ActiveAlarm) (hl : List.lookup id st = some a)
    (ht : a.state = .triggered) :
    (60 * minuteNs ≤ now - a.startTime →
      List.lookup id (updateActiveAlarms now st) = none) ∧
    (now - a.startTime < 60 * minuteNs →
      List.lookup id (updateActiveAlarms now st) = some a) := by
  induction st with
  | nil => cases hl
  | cons p rest ih =>
      obtain ⟨k, c⟩ := p
      simp only [List.map_cons, List.nodup_cons] at hnd
      obtain ⟨hknotin, hndrest⟩ := hnd
      simp only [List.lookup] at hl
      cases hbeq : (id == k) with
      | true =>
          rw [hbeq] at hl
          have hid : id = k := by simpa using hbeq
          have hca : c = a := by cases hl; rfl
          subst hid hca
          have hone : updateOne now (id, c) =
              if 60 * minuteNs ≤ now - c.startTime then none else some (id, c) := by
            unfold updateOne
            simp [ht]
          rw [updateActiveAlarms_cons, hone]
          constructor
          · intro hage
            rw [if_pos hage]
            exact lookup_update_none now rest id (lookup_none_of_not_mem_keys id rest hknotin)
          · intro hage
            rw [if_neg (by omega)]
            simp [List.lookup]
      | false =>
          rw [hbeq] at hl
          have ihr := ih hndrest hl
          rw [updateActiveAlarms_cons]
          cases hf : updateOne now (k, c) with
          | none => exact ihr
          | some q =>
              have hq := updateOne_key now (k, c) q hf
              have hb2 : (id == q.1) = false := by rw [hq]; exact hbeq
              constructor <;> intro hage <;> simp only [List.lookup, hb2]
              · exact ihr.1 hage
              · exact ihr.2 hage

theorem claim_C4_witness :
    List.lookup 1 (updateActiveAlarms (61 * minuteNs)
      [(1, { state := .triggered, startTime := 0, snoozeUntil := 0 })]) = none ∧
    List.lookup 1 (updateActiveAlarms (59 * minuteNs)
      [(1, { state := .triggered, startTime := 0, snoozeUntil := 0 })]) =
      some { state := .triggered, startTime := 0, snoozeUntil := 0 } :=
  ⟨(claim_C4 (61 * minuteNs) [(1, ⟨.triggered, 0, 0⟩)] (by simp) 1 ⟨.triggered, 0, 0⟩ rfl rfl).1
      (by norm_num [minuteNs]),
   (claim_C4 (59 * minuteNs) [(1, ⟨.triggered, 0, 0⟩)] (by simp) 1 ⟨.triggered, 0, 0⟩ rfl rfl).2
      (by norm_num [minuteNs])⟩

theorem isAlarmActive_iff (a : Alarm) (t : GoTime) :
    IsAlarmActive a t = true ↔
      (a.enabled = true ∧ a.days.getD t.weekday.val false = true ∧
        format150405 t = normalizeAlarmTime a.time) := by
  simp [IsAlarmActive, Bool.and_eq_true, and_assoc]

theorem lookup1_checkAlarm2 (cfg : Config) (now : GoTime) (st : AlarmMap) :
    List.lookup 1 (checkAlarm2 cfg now st) = List.lookup 1 st := by
  unfold checkAlarm2
  split
  · simp [List.lookup]
  · rfl

theorem lookup2_checkAlarm1 (cfg : Config) (now : GoTime) (st : AlarmMap) :
    List.lookup 2 (checkAlarm1 cfg now st) = List.lookup 2 st := by
  unfold checkAlarm1
  split
  · simp [List.lookup]
  · rfl

theorem lookup1_checkAlarms (cfg : Config) (now : GoTime) (st : AlarmMap) :
    List.lookup 1 (checkAlarms cfg now st) =
      if IsAlarmActive cfg.alarm1 now ∧ List.lookup 1 st = none then
        some (triggeredAt now)
      else List.lookup 1 st := by
  unfold checkAlarms
  rw [lookup1_checkAlarm2]
  unfold checkAlarm1
  split
  · simp [List.lookup]
  · rfl

theorem lookup2_checkAlarms (cfg : Config) (now : GoTime) (st : AlarmMap) :
    List.lookup 2 (checkAlarms cfg now st) =
      if IsAlarmActive cfg.alarm2 now ∧ List.lookup 2 st = none then
        some (triggeredAt now)
      else List.lookup 2 st := by
  unfold checkAlarms checkAlarm2
  rw [lookup2_checkAlarm1]
  split
  · simp [List.lookup]
  · exact lookup2_checkAlarm1 cfg now st

theorem updateOne_triggeredAt (now : GoTime) (i : Nat) :
    updateOne now.abs (i, triggeredAt now) = some (i, triggeredAt now) := by
  unfold updateOne triggeredAt
  simp [minuteNs]

theorem lookup_update_of_updateOne (now : Int) (st : AlarmMap) (i : Nat)
    (a b : ActiveAlarm) (hl : List.lookup i st = some a)
    (h1 : updateOne now (i, a) = some (i, b)) :
    List.lookup i (updateActiveAlarms now st) = some b := by
  induction st with
  | nil => cases hl
  | cons p rest ih =>
      obtain ⟨k, c⟩ := p
      simp only [List.lookup] at hl
      cases hbeq : (i == k) with
      | true =>
          rw [hbeq] at hl
          have hik : i = k := by simpa using hbeq
          have hca : c = a := by cases hl; rfl
          subst hik hca
          rw [updateActiveAlarms_cons, h1]
          simp [List.lookup]
      | false =>
          rw [hbeq] at hl
          rw [updateActiveAlarms_cons]
          cases hf : updateOne now (k, c) with
          | none => exact ih hl
          | some q =>
              have hq := updateOne_key now (k, c) q hf
              have hb2 : (i == q.1) = false := by rw [hq]; exact hbeq
              simp only [List.lookup, hb2]
              exact ih hl

theorem tick_creates_iff (cfg : Config) (now : GoTime) (st : AlarmMap)
    (i : Nat) (al : Alarm)
    (hA : List.lookup i (checkAlarms cfg now st) =
      if IsAlarmActive al now ∧ List.lookup i st = none then
        some (triggeredAt now)
      else List.lookup i st) :
    ((List.lookup i st = none ∧
        List.lookup i (tickAlarms cfg now st) = some (triggeredAt now)) ↔
      (al.enabled = true ∧ al.days.getD now.weekday.val false = true ∧
        format150405 now = normalizeAlarmTime al.time ∧
        List.lookup i st = none)) := by
  constructor
  · rintro ⟨hnone, htick⟩
    by_cases hact : IsAlarmActive al now = true
    · obtain ⟨he, hd, hf⟩ := (isAlarmActive_iff al now).mp hact
      exact ⟨he, hd, hf, hnone⟩
    · exfalso
      have hcond : ¬(IsAlarmActive al now = true ∧ List.lookup i st = none) :=
        fun hc => hact hc.1
      have hchk : List.lookup i (checkAlarms cfg now st) = none := by
        rw [hA, if_neg hcond]
        exact hnone
      have hupd : List.lookup i (tickAlarms cfg now st) = none :=
        lookup_update_none now.abs _ i hchk
      rw [htick] at hupd
      cases hupd
  · rintro ⟨he, hd, hf, hnone⟩
    have hact := (isAlarmActive_iff al now).mpr ⟨he, hd, hf⟩
    refine ⟨hnone, ?_⟩
    have hA2 : List.lookup i (checkAlarms cfg now st) = some (triggeredAt now) := by
      rw [hA, if_pos ⟨hact, hnone⟩]
    exact lookup_update_of_updateOne now.abs _ i (triggeredAt now) (triggeredAt now)
      hA2 (updateOne_triggeredAt now i)

/-- C1: a scheduler tick creates an active instance (state Triggered,
started now) for alarm 1 or alarm 2 exactly when that alarm is enabled,
the day bit of the current weekday (Sunday = 0) is set in its 7-element
day mask, the formatted "HH:MM:SS" of now equals the alarm time
normalized to HH:MM:SS, and no active instance for it already exists. -/
theorem claim_C1 (cfg : Config) (now : GoTime) (st : AlarmMap)
    (_h7a : cfg.alarm1.days.length = 7) (_h7b : cfg.alarm2.days.length = 7) :
    ((List.lookup 1 st = none ∧
        List.lookup 1 (tickAlarms cfg now st) = some (triggeredAt now)) ↔
      (cfg.alarm1.enabled = true ∧
        cfg.alarm1.days.getD now.weekday.val false = true ∧
        format150405 now = normalizeAlarmTime cfg.alarm1.time ∧
        List.lookup 1 st = none)) ∧
    ((List.lookup 2 st = none ∧
        List.lookup 2 (tickAlarms cfg now st) = some (triggeredAt now)) ↔
      (cfg.alarm2.enabled = true ∧
        cfg.alarm2.days.getD now.weekday.val false = true ∧
        format150405 now = normalizeAlarmTime cfg.alarm2.time ∧
        List.lookup 2 st = none)) :=
  ⟨tick_creates_iff cfg now st 1 cfg.alarm1 (lookup1_checkAlarms cfg now st),
   tick_creates_iff cfg now st 2 cfg.alarm2 (lookup2_checkAlarms cfg now st)⟩

theorem claim_C1_witness :
    List.lookup 1 ([] : AlarmMap) = none ∧
    List.lookup 1 (tickAlarms demoConfig demoTime []) = some (triggeredAt demoTime) :=
  ((claim_C1 demoConfig demoTime [] rfl rfl).1).mpr ⟨rfl, rfl, rfl, rfl⟩
